import Mathlib

/-!
Verification development for the concurrency-control and memory-management
core of the corobase storage engine.  The definitions below are a shallow
embedding, in sequential form, of the region allocator and epoch callbacks in
src/dbcore/sm-alloc.cpp and of the reader-bitmap slot management in
src/dbcore/serial.cpp.  Machine integers (uint64_t) are modelled as Nat with
explicit reduction modulo 2^64 wherever the C++ arithmetic can wrap.
-/

namespace Corobase

/-- Modulus of 64-bit machine words (uint64_t arithmetic is mod this). -/
def W64 : Nat := 2 ^ 64

/-- Wrapping uint64_t subtraction: the value of the C++ expression x - y on
uint64_t operands, for x, y < 2^64. -/
def u64sub (x y : Nat) : Nat := (x + (W64 - y % W64)) % W64

/-- GC states of a region allocator: RA_NORMAL, RA_GC_REQUESTED,
RA_GC_IN_PROG, RA_GC_FINISHED in sm-alloc.cpp. -/
inductive GCState where
  | normal
  | gcRequested
  | gcInProg
  | gcFinished
deriving DecidableEq

/-- Mutable per-socket allocator state: the fields of class region_allocator
that the allocation and reclamation paths read or write (the data pointers
_hot_data / _cold_data are modelled implicitly: results are byte offsets into
the corresponding region). -/
structure RAState where
  allocated_hot_offset : Nat
  allocated_cold_offset : Nat
  reclaimed_offset : Nat
  allocated : Nat
  state : GCState
deriving DecidableEq

/-- NUM_SEGMENT_BITS (enum in region_allocator): the hot region holds
2^NUM_SEGMENT_BITS segments. -/
def NUM_SEGMENT_BITS : Nat := 2

/-- RA::MEM_SEGMENT_BITS: the segment-size exponent RA::init passes to every
region_allocator constructor. -/
def MEM_SEGMENT_BITS : Nat := 30

/-- RA::TRIM_MARK: bytes accumulated before an epoch advance is requested. -/
def TRIM_MARK : Nat := 16 * 1024 * 1024

/-- Derived field _hot_bits = NUM_SEGMENT_BITS + _segment_bits. -/
def hot_bits (sbits : Nat) : Nat := NUM_SEGMENT_BITS + sbits

/-- Derived field _hot_capacity = uint64_t 1 << _hot_bits. -/
def hot_capacity (sbits : Nat) : Nat := 2 ^ hot_bits sbits

/-- Derived field _cold_capacity = (uint64_t 1 << _segment_bits) * 2. -/
def cold_capacity (sbits : Nat) : Nat := 2 ^ sbits * 2

/-- Derived field _hot_mask = _hot_capacity - 1. -/
def hot_mask (sbits : Nat) : Nat := hot_capacity sbits - 1

/-- Derived field _cold_mask = _cold_capacity - 1. -/
def cold_mask (sbits : Nat) : Nat := cold_capacity sbits - 1

/-- The allocator state established by the constructor
region_allocator::region_allocator(one_segment_bits, skt):
_reclaimed_offset = _hot_capacity, _allocated_hot_offset = 0,
_allocated_cold_offset = 0, _allocated = 0, _state = RA_NORMAL. -/
def region_allocator.init (sbits : Nat) : RAState :=
  { allocated_hot_offset := 0
    allocated_cold_offset := 0
    reclaimed_offset := hot_capacity sbits
    allocated := 0
    state := GCState.normal }

/-- Outcome of one iteration of the retry loop in region_allocator::allocate:
either a successful return (with the byte offset into _hot_data), a thrown
std::bad_alloc (out of memory), a thrown std::runtime_error (GC requested
before the last round finished), or a goto retry. -/
inductive StepResult where
  | ok (off : Nat)
  | oom
  | fatal
  | retry
deriving DecidableEq

/-- One iteration of the retry loop of region_allocator::allocate(size).
The iteration fetch-and-adds size into _allocated_hot_offset obtaining
noffset, throws std::bad_alloc if _reclaimed_offset < noffset, adds size to
_allocated, and checks whether the chunk spans a segment boundary, in which
case it either throws (state not RA_NORMAL) or sets RA_GC_REQUESTED and
retries.  Otherwise it possibly requests an epoch advance (the boolean adv
models the externally decided new_epoch_possible() && new_epoch(), which
resets _allocated) and returns offset (noffset - size) & _hot_mask.  All
counter arithmetic wraps mod 2^64. -/
def allocate_step (sbits : Nat) (adv : Bool) (s : RAState) (size : Nat) :
    StepResult × RAState :=
  let noffset := (s.allocated_hot_offset + size) % W64
  if s.reclaimed_offset < noffset then
    (StepResult.oom, { s with allocated_hot_offset := noffset })
  else
    let s1 := { s with allocated_hot_offset := noffset,
                       allocated := (s.allocated + size) % W64 }
    if u64sub noffset 1 >>> sbits ≠ u64sub noffset size >>> sbits then
      if s1.state ≠ GCState.normal then
        (StepResult.fatal, s1)
      else
        (StepResult.retry, { s1 with state := GCState.gcRequested })
    else
      let s2 := if TRIM_MARK ≤ s1.allocated ∧ adv = true then
                  { s1 with allocated := 0 }
                else s1
      (StepResult.ok (u64sub noffset size &&& hot_mask sbits), s2)

/-- Outcome of a whole region_allocator::allocate call. -/
inductive AllocResult where
  | ok (off : Nat)
  | oom
  | fatal
deriving DecidableEq

/-- region_allocator::allocate(size), sequentially: run one iteration; on
goto retry run a second iteration.  A second retry cannot occur (the first
retry leaves the state RA_GC_REQUESTED, and a spanning chunk in a non-NORMAL
state throws); the fallback arm is therefore dead but keeps the function
total. -/
def allocate (sbits : Nat) (adv1 adv2 : Bool) (s : RAState) (size : Nat) :
    AllocResult × RAState :=
  match allocate_step sbits adv1 s size with
  | (StepResult.ok off, s1) => (AllocResult.ok off, s1)
  | (StepResult.oom, s1) => (AllocResult.oom, s1)
  | (StepResult.fatal, s1) => (AllocResult.fatal, s1)
  | (StepResult.retry, s1) =>
    match allocate_step sbits adv2 s1 size with
    | (StepResult.ok off, s2) => (AllocResult.ok off, s2)
    | (StepResult.oom, s2) => (AllocResult.oom, s2)
    | (StepResult.fatal, s2) => (AllocResult.fatal, s2)
    | (StepResult.retry, s2) => (AllocResult.fatal, s2)

/-- region_allocator::allocate_cold(size): bump _allocated_cold_offset by
size obtaining noffset, throw std::bad_alloc (modelled as none) if
_cold_capacity < noffset, else return offset (noffset - size) & _cold_mask
into _cold_data. -/
def allocate_cold (sbits : Nat) (s : RAState) (size : Nat) :
    Option Nat × RAState :=
  let noffset := (s.allocated_cold_offset + size) % W64
  if cold_capacity sbits < noffset then
    (none, { s with allocated_cold_offset := noffset })
  else
    (some (u64sub noffset size &&& cold_mask sbits),
     { s with allocated_cold_offset := noffset })

/-- Value, converted to uint64_t, of the C++ expression 1 << b where the
literal 1 has type int (32-bit), as in RA::epoch_reclaimed and
region_allocator::reclaim_daemon.  For b ≤ 30 this is 2^b.  For b = 31 the
shift wraps to INT_MIN (the universal two complement behaviour, formally
implementation-defined before C++20) and sign-extends on conversion; for
b ≥ 32 the behaviour is undefined and we adopt the x86 semantics of masking
the shift count to 5 bits. -/
def cppIntShl1 (b : Nat) : Nat :=
  let v := (1 <<< (b % 32)) % 2 ^ 32
  if v < 2 ^ 31 then v else 2 ^ 64 - 2 ^ 32 + v

/-- Effect of RA::epoch_reclaimed on one region allocator: RA_GC_REQUESTED
moves to RA_GC_IN_PROG (and the daemon is signalled); RA_GC_FINISHED bumps
_reclaimed_offset by (int) 1 << _segment_bits (uint64_t addition, no modulo
taken in the source beyond the 64-bit wrap) and returns to RA_NORMAL. -/
def epoch_reclaimed_alloc (sbits : Nat) (s : RAState) : RAState :=
  match s.state with
  | GCState.gcRequested => { s with state := GCState.gcInProg }
  | GCState.gcFinished =>
    { s with reclaimed_offset := (s.reclaimed_offset + cppIntShl1 sbits) % W64,
             state := GCState.normal }
  | _ => s

/-- Modelled from the spec: LSN is an opaque 64-bit value with a
distinguished INVALID_LSN (the LSN type is declared outside the sources under
verification); we represent LSN as Nat and INVALID_LSN as 0. -/
def INVALID_LSN : Nat := 0

/-- RA::epoch_ended(cookie, e): scan the per-socket allocators; on the first
one whose state is RA_GC_REQUESTED or RA_GC_FINISHED, allocate an LSN cookie
holding cur_lsn if an RCU region is active and INVALID_LSN otherwise, and
return it; return NULL (none) if no allocator needs GC. -/
def epoch_ended (states : List GCState) (rcuActive : Bool) (curLsn : Nat) :
    Option Nat :=
  match states with
  | [] => none
  | s :: rest =>
    if s = GCState.gcRequested ∨ s = GCState.gcFinished then
      some (if rcuActive then curLsn else INVALID_LSN)
    else
      epoch_ended rest rcuActive curLsn

/-- RA::epoch_reclaimed(cookie, epoch_cookie): the code dereferences and
frees epoch_cookie unconditionally, so a NULL cookie (none) is a crash,
modelled as none.  Otherwise trim_lsn is overwritten with the cookie value
unless it is INVALID_LSN, and every allocator undergoes its GC state
transition.  Returns (new trim_lsn, new allocator states). -/
def epoch_reclaimed (sbits : Nat) (cookie : Option Nat) (trim : Nat)
    (allocs : List RAState) : Option (Nat × List RAState) :=
  match cookie with
  | none => none
  | some lsn =>
    some ((if lsn ≠ INVALID_LSN then lsn else trim),
      allocs.map (epoch_reclaimed_alloc sbits))

/-- TXN::assign_reader_bitmap_entry (serial.cpp), sequentially (the CAS
succeeds first try): if the thread already holds a slot (tls ≠ 0) do
nothing; otherwise compute new_bitmap = old | (old + 1) in the w-bit word
type rl_bitmap_t, install it, and set tls_bitmap_entry = new_bitmap ^
old_bitmap.  Returns (claimed_bitmap_entries, tls_bitmap_entry) after the
call.  Note: there is no exhaustion check in the code (it is commented out),
so the function is total. -/
def assign_reader_bitmap_entry (w : Nat) (claimed tls : Nat) : Nat × Nat :=
  if tls ≠ 0 then (claimed, tls)
  else
    let new_bitmap := claimed ||| ((claimed + 1) % 2 ^ w)
    (new_bitmap, new_bitmap ^^^ claimed)

/-- TXN::deassign_reader_bitmap_entry: fetch-and-xor the thread slot out of
claimed_bitmap_entries and zero tls_bitmap_entry. -/
def deassign_reader_bitmap_entry (claimed tls : Nat) : Nat × Nat :=
  (claimed ^^^ tls, 0)

/-- TXN::serial_deregister_reader_tx(t): if rl_bitmap & tls_bitmap_entry is
nonzero, fetch-and-xor tls_bitmap_entry out of rl_bitmap; the guard keeps
repeated deregistration from flipping the bit back. -/
def serial_deregister_reader_tx (rl_bitmap tls : Nat) : Nat :=
  if rl_bitmap &&& tls ≠ 0 then rl_bitmap ^^^ tls else rl_bitmap

/-- Results of a sequence of region_allocator::allocate_cold calls issued
against successive states of one allocator. -/
def coldRun (sbits : Nat) (s : RAState) : List Nat → List (Option Nat)
  | [] => []
  | size :: rest =>
    (allocate_cold sbits s size).1 ::
      coldRun sbits (allocate_cold sbits s size).2 rest

/-- Sum of the first i entries of a list of sizes. -/
def prefSum : List Nat → Nat → Nat
  | _, 0 => 0
  | [], _ + 1 => 0
  | size :: rest, i + 1 => size + prefSum rest i

/-- Index of the lowest clear bit of a natural number. -/
def lowestUnsetBit (b : Nat) : Nat :=
  if b % 2 = 0 then 0 else lowestUnsetBit (b / 2) + 1
termination_by b
decreasing_by
  simp_wf
  omega

/-- States of one per-socket allocator (constructed by RA::init with
MEM_SEGMENT_BITS = 30) reachable by allocate calls that do not throw
std::bad_alloc and whose requested sizes are positive, allocate_cold calls,
reclaim-daemon completions, and RA::epoch_reclaimed transitions, under the
side conditions that the 64-bit counters never wrap. -/
inductive ReachNoOOM (sbits : Nat) : RAState → Prop where
  | init : ReachNoOOM sbits (region_allocator.init sbits)
  | alloc (s : RAState) (size : Nat) (adv1 adv2 : Bool) :
      ReachNoOOM sbits s →
      1 ≤ size →
      s.allocated_hot_offset + size + size < W64 →
      (allocate sbits adv1 adv2 s size).1 ≠ AllocResult.oom →
      ReachNoOOM sbits (allocate sbits adv1 adv2 s size).2
  | allocCold (s : RAState) (size : Nat) :
      ReachNoOOM sbits s →
      ReachNoOOM sbits (allocate_cold sbits s size).2
  | daemonDone (s : RAState) :
      ReachNoOOM sbits s →
      s.state = GCState.gcInProg →
      ReachNoOOM sbits { s with state := GCState.gcFinished }
  | epochReclaim (s : RAState) :
      ReachNoOOM sbits s →
      s.reclaimed_offset + 2 ^ sbits < W64 →
      ReachNoOOM sbits (epoch_reclaimed_alloc sbits s)

/-- Invariant tying _reclaimed_offset to the allocation cursor: the window
bound of claim C1, strengthened by segment alignment facts needed for the
GC bump. -/
def allocInv (s : RAState) : Prop :=
  s.allocated_hot_offset ≤ s.reclaimed_offset ∧
  s.reclaimed_offset ≤ (s.allocated_hot_offset >>> 30) * 2 ^ 30 + 2 ^ 32 ∧
  (s.state ≠ GCState.normal →
    s.reclaimed_offset + 2 ^ 30 ≤ (s.allocated_hot_offset >>> 30) * 2 ^ 30 + 2 ^ 32)

/-- Injection of a loop-iteration outcome into a whole-call outcome, as
performed by the final match of allocate; the retry arm is the dead fallback
(a second retry cannot happen). -/
def stepToCall : StepResult × RAState → AllocResult × RAState
  | (StepResult.ok off, s) => (AllocResult.ok off, s)
  | (StepResult.oom, s) => (AllocResult.oom, s)
  | (StepResult.fatal, s) => (AllocResult.fatal, s)
  | (StepResult.retry, s) => (AllocResult.fatal, s)

/-- A freshly constructed allocator with segment bits 31 whose daemon has
finished a GC round. -/
def c5FinState31 : RAState :=
  { region_allocator.init 31 with state := GCState.gcFinished }

/-- A freshly constructed allocator with segment bits 3 (hot capacity 32
bytes, segment size 8), used for concrete witnesses. -/
def raInit3 : RAState := region_allocator.init 3

/-- The witness allocator while a GC round is in progress. -/
def raInit3InProg : RAState := { region_allocator.init 3 with state := GCState.gcInProg }

/-- The per-socket allocator (MEM_SEGMENT_BITS = 30) after four allocations
of one full segment (2^30 bytes) each: the hot region is exactly full. -/
def c1Trace4 : RAState :=
  (allocate 30 false false
    (allocate 30 false false
      (allocate 30 false false
        (allocate 30 false false (region_allocator.init 30) (2 ^ 30)).2
        (2 ^ 30)).2
      (2 ^ 30)).2
    (2 ^ 30)).2

/-- The same allocator immediately after a fifth allocation of 2^30 bytes,
which raises out-of-memory. -/
def c1Trace5 : RAState := (allocate 30 false false c1Trace4 (2 ^ 30)).2

/-! Bit-level helper lemmas for the claimed-bits word and reader bitmaps. -/

theorem lowestUnsetBit_even {b : Nat} (h : b % 2 = 0) : lowestUnsetBit b = 0 := by
  rw [lowestUnsetBit]
  simp [h]

theorem lowestUnsetBit_odd {b : Nat} (h : b % 2 = 1) :
    lowestUnsetBit b = lowestUnsetBit (b / 2) + 1 := by
  rw [lowestUnsetBit]
  simp [h]

theorem lor_succ_xor (b : Nat) : (b ||| (b + 1)) ^^^ b = 2 ^ lowestUnsetBit b := by
  induction b using Nat.strong_induction_on with
  | _ b ih =>
    rcases Nat.mod_two_eq_zero_or_one b with hb | hb
    · rw [lowestUnsetBit_even hb, pow_zero]
      apply Nat.eq_of_testBit_eq
      intro j
      cases j with
      | zero =>
        have h1 : (b + 1) % 2 = 1 := by omega
        have hb0 : b.testBit 0 = false := by simp [Nat.testBit_zero, hb]
        have hb1 : (b + 1).testBit 0 = true := by simp [Nat.testBit_zero, h1]
        rw [Nat.testBit_xor, Nat.testBit_or, hb0, hb1]
        decide
      | succ i =>
        have h1 : (b + 1) / 2 = b / 2 := by omega
        have h2 : Nat.testBit 1 (i + 1) = false := by
          rw [Nat.testBit_add_one]
          simp
        rw [Nat.testBit_xor, Nat.testBit_or, Nat.testBit_add_one (b + 1) i, h1,
          Nat.testBit_add_one b i, h2]
        cases (b / 2).testBit i <;> decide
    · have hlt : b / 2 < b := by omega
      rw [lowestUnsetBit_odd hb]
      apply Nat.eq_of_testBit_eq
      intro j
      cases j with
      | zero =>
        have h1 : (b + 1) % 2 = 0 := by omega
        have hb0 : b.testBit 0 = true := by simp [Nat.testBit_zero, hb]
        have hb1 : (b + 1).testBit 0 = false := by simp [Nat.testBit_zero, h1]
        have h2 : Nat.testBit (2 ^ (lowestUnsetBit (b / 2) + 1)) 0 = false := by
          rw [Nat.pow_succ]
          simp [Nat.testBit_zero, Nat.mul_mod_left]
        rw [Nat.testBit_xor, Nat.testBit_or, hb0, hb1, h2]
        decide
      | succ i =>
        have h1 : (b + 1) / 2 = b / 2 + 1 := by omega
        have h3 : 2 ^ (lowestUnsetBit (b / 2) + 1) / 2 = 2 ^ lowestUnsetBit (b / 2) := by
          rw [Nat.pow_succ]
          omega
        have hih := ih (b / 2) hlt
        rw [Nat.testBit_xor, Nat.testBit_or, Nat.testBit_add_one (b + 1) i, h1,
          Nat.testBit_add_one b i,
          Nat.testBit_add_one (2 ^ (lowestUnsetBit (b / 2) + 1)) i, h3, ← hih,
          Nat.testBit_xor, Nat.testBit_or]

theorem two_pow_lowestUnsetBit_le (b : Nat) : 2 ^ lowestUnsetBit b ≤ b + 1 := by
  induction b using Nat.strong_induction_on with
  | _ b ih =>
    rcases Nat.mod_two_eq_zero_or_one b with hb | hb
    · rw [lowestUnsetBit_even hb, pow_zero]
      omega
    · have hlt : b / 2 < b := by omega
      have := ih (b / 2) hlt
      rw [lowestUnsetBit_odd hb, Nat.pow_succ]
      omega

theorem testBit_lowestUnsetBit (b : Nat) : b.testBit (lowestUnsetBit b) = false := by
  induction b using Nat.strong_induction_on with
  | _ b ih =>
    rcases Nat.mod_two_eq_zero_or_one b with hb | hb
    · rw [lowestUnsetBit_even hb]
      simp [hb]
    · have hlt : b / 2 < b := by omega
      rw [lowestUnsetBit_odd hb, Nat.testBit_add_one]
      exact ih (b / 2) hlt

theorem testBit_of_lt_lowestUnsetBit (b : Nat) :
    ∀ j, j < lowestUnsetBit b → b.testBit j = true := by
  induction b using Nat.strong_induction_on with
  | _ b ih =>
    intro j hj
    rcases Nat.mod_two_eq_zero_or_one b with hb | hb
    · rw [lowestUnsetBit_even hb] at hj
      omega
    · rw [lowestUnsetBit_odd hb] at hj
      cases j with
      | zero => simp [hb]
      | succ i =>
        rw [Nat.testBit_add_one]
        exact ih (b / 2) (by omega) i (by omega)

theorem lor_succ_eq (b : Nat) : b ||| (b + 1) = b ^^^ 2 ^ lowestUnsetBit b := by
  have h := lor_succ_xor b
  have h2 : ((b ||| (b + 1)) ^^^ b) ^^^ b = b ||| (b + 1) := by
    rw [Nat.xor_assoc, Nat.xor_self, Nat.xor_zero]
  rw [← h2, h, Nat.xor_comm]

theorem xor_two_pow_of_testBit_false {b k : Nat} (h : b.testBit k = false) :
    b ^^^ 2 ^ k = b ||| 2 ^ k := by
  apply Nat.eq_of_testBit_eq
  intro j
  by_cases hj : j = k
  · subst hj
    simp [h, Nat.testBit_two_pow_self]
  · simp [Nat.testBit_two_pow_of_ne (Ne.symm hj)]

theorem lor_two_pow_xor {b k : Nat} (h : b.testBit k = false) :
    (b ||| 2 ^ k) ^^^ 2 ^ k = b := by
  apply Nat.eq_of_testBit_eq
  intro j
  by_cases hj : j = k
  · subst hj
    simp [h, Nat.testBit_two_pow_self]
  · simp [Nat.testBit_two_pow_of_ne (Ne.symm hj)]

theorem and_two_pow_eq_zero {b k : Nat} (h : b.testBit k = false) :
    b &&& 2 ^ k = 0 := by
  apply Nat.eq_of_testBit_eq
  intro j
  by_cases hj : j = k
  · subst hj
    simp [h]
  · simp [Nat.testBit_two_pow_of_ne (Ne.symm hj)]

theorem and_two_pow_ne_zero {b k : Nat} (h : b.testBit k = true) :
    b &&& 2 ^ k ≠ 0 := by
  intro h0
  have hbit : (b &&& 2 ^ k).testBit k = true := by
    simp [h, Nat.testBit_two_pow_self]
  rw [h0] at hbit
  simp at hbit

theorem and_two_pow_eq_zero_iff (bm k : Nat) :
    bm &&& 2 ^ k = 0 ↔ bm.testBit k = false := by
  constructor
  · intro h
    cases hh : bm.testBit k
    · rfl
    · exact absurd h (and_two_pow_ne_zero hh)
  · exact and_two_pow_eq_zero

theorem dereg_spec (bm k : Nat) :
    (serial_deregister_reader_tx bm (2 ^ k)).testBit k = false ∧
    ∀ j, j ≠ k →
      (serial_deregister_reader_tx bm (2 ^ k)).testBit j = bm.testBit j := by
  by_cases h : bm &&& 2 ^ k = 0
  · have hres : serial_deregister_reader_tx bm (2 ^ k) = bm := by
      simp [serial_deregister_reader_tx, h]
    rw [hres]
    exact ⟨(and_two_pow_eq_zero_iff bm k).mp h, fun j _ => rfl⟩
  · have hbit : bm.testBit k = true := by
      cases hh : bm.testBit k
      · exact absurd ((and_two_pow_eq_zero_iff bm k).mpr hh) h
      · rfl
    have hres : serial_deregister_reader_tx bm (2 ^ k) = bm ^^^ 2 ^ k := by
      simp [serial_deregister_reader_tx, h]
    rw [hres]
    constructor
    · simp [Nat.testBit_xor, hbit, Nat.testBit_two_pow_self]
    · intro j hj
      simp [Nat.testBit_xor, Nat.testBit_two_pow_of_ne (Ne.symm hj)]

theorem dereg_idem (bm k : Nat) :
    serial_deregister_reader_tx (serial_deregister_reader_tx bm (2 ^ k)) (2 ^ k) =
      serial_deregister_reader_tx bm (2 ^ k) := by
  have h0 : serial_deregister_reader_tx bm (2 ^ k) &&& 2 ^ k = 0 :=
    (and_two_pow_eq_zero_iff _ _).mpr (dereg_spec bm k).1
  set x := serial_deregister_reader_tx bm (2 ^ k) with hx
  simp [serial_deregister_reader_tx, h0]

theorem dereg_iterate (bm k n : Nat) (hn : 1 ≤ n) :
    (fun b => serial_deregister_reader_tx b (2 ^ k))^[n] bm =
      serial_deregister_reader_tx bm (2 ^ k) := by
  induction n with
  | zero => omega
  | succ m ih =>
    cases m with
    | zero => simp
    | succ l =>
      rw [Function.iterate_succ_apply', ih (by omega)]
      simpa using dereg_idem bm k

/-- C6: after one or more serial_deregister_reader_tx calls by a thread whose
slot mask is the single bit 2^k, the bit is clear in rl_bitmap and every
other bit of rl_bitmap is unchanged; in particular repeated deregistration
does not set the bit back. -/
theorem c6_deregister_clears_bit (bm k n : Nat) (hn : 1 ≤ n) :
    ((fun b => serial_deregister_reader_tx b (2 ^ k))^[n] bm) &&& 2 ^ k = 0 ∧
    ∀ j, j ≠ k →
      ((fun b => serial_deregister_reader_tx b (2 ^ k))^[n] bm).testBit j =
        bm.testBit j := by
  rw [dereg_iterate bm k n hn]
  exact ⟨(and_two_pow_eq_zero_iff _ _).mpr (dereg_spec bm k).1, (dereg_spec bm k).2⟩

/-- Witness for C6 at rl_bitmap = 13, slot bit 2^2, two deregistrations. -/
theorem c6_witness :
    1 ≤ 2 ∧
    (((fun b => serial_deregister_reader_tx b (2 ^ 2))^[2] 13) &&& 2 ^ 2 = 0 ∧
    ∀ j, j ≠ 2 →
      ((fun b => serial_deregister_reader_tx b (2 ^ 2))^[2] 13).testBit j =
        Nat.testBit 13 j) :=
  ⟨by norm_num, c6_deregister_clears_bit 13 2 2 (by norm_num)⟩

/-- C7: on a claimed-bits word b with at least one zero bit, slot
registration hands the thread exactly the lowest unset bit of b, a
single-bit mask equal to (b OR (b+1)) XOR b, and marks it claimed;
deregistration clears exactly that bit and zeroes the thread slot. -/
theorem c7_slot_claim_lowest_unset_bit (w b : Nat) (hlt : b < 2 ^ w)
    (hne : b ≠ 2 ^ w - 1) :
    ∃ k : Nat,
      (assign_reader_bitmap_entry w b 0).2 = 2 ^ k ∧
      2 ^ k = (b ||| (b + 1)) ^^^ b ∧
      b.testBit k = false ∧
      (∀ j, j < k → b.testBit j = true) ∧
      (assign_reader_bitmap_entry w b 0).1 = b ||| 2 ^ k ∧
      deassign_reader_bitmap_entry (assign_reader_bitmap_entry w b 0).1
        (assign_reader_bitmap_entry w b 0).2 = (b, 0) := by
  have hpos : 0 < 2 ^ w := Nat.pos_pow_of_pos w (by norm_num)
  have hsucc : b + 1 < 2 ^ w := by omega
  have hmod : (b + 1) % 2 ^ w = b + 1 := Nat.mod_eq_of_lt hsucc
  have hx : ∀ X : Nat, X ^^^ (X ^^^ b) = b := fun X => by
    rw [← Nat.xor_assoc, Nat.xor_self, Nat.zero_xor]
  refine ⟨lowestUnsetBit b, ?_, (lor_succ_xor b).symm, testBit_lowestUnsetBit b,
    fun j hj => testBit_of_lt_lowestUnsetBit b j hj, ?_, ?_⟩
  · simp [assign_reader_bitmap_entry, hmod, lor_succ_xor]
  · simp [assign_reader_bitmap_entry, hmod, lor_succ_eq,
      xor_two_pow_of_testBit_false (testBit_lowestUnsetBit b)]
  · simp [assign_reader_bitmap_entry, deassign_reader_bitmap_entry, hmod, hx]

/-- Witness for C7 at w = 64, b = 23 (binary 10111, lowest unset bit 3). -/
theorem c7_witness :
    ((23:Nat) < 2 ^ 64 ∧ (23:Nat) ≠ 2 ^ 64 - 1) ∧
    ∃ k : Nat,
      (assign_reader_bitmap_entry 64 23 0).2 = 2 ^ k ∧
      2 ^ k = (23 ||| (23 + 1)) ^^^ 23 ∧
      Nat.testBit 23 k = false ∧
      (∀ j, j < k → Nat.testBit 23 j = true) ∧
      (assign_reader_bitmap_entry 64 23 0).1 = 23 ||| 2 ^ k ∧
      deassign_reader_bitmap_entry (assign_reader_bitmap_entry 64 23 0).1
        (assign_reader_bitmap_entry 64 23 0).2 = (23, 0) :=
  ⟨⟨by norm_num, by norm_num⟩,
    c7_slot_claim_lowest_unset_bit 64 23 (by norm_num) (by norm_num)⟩

/-- C4: with every slot of the 64-bit claimed-bits word already taken,
assign_reader_bitmap_entry returns normally (no fatal SlotExhaustion error
exists in the code: the exhaustion assertion is commented out), leaving the
claimed word unchanged and silently handing the thread the invalid slot mask
0 — contradicting the claim and the specification, which require a fatal
error here. -/
theorem c4_full_word_registration_yields_zero_mask :
    assign_reader_bitmap_entry 64 (2 ^ 64 - 1) 0 = (2 ^ 64 - 1, 0) := by
  have h : (2 ^ 64 - 1 + 1) % 2 ^ 64 = 0 := by norm_num
  simp [assign_reader_bitmap_entry, h]

/-! Arithmetic helper lemmas for the allocator. -/

theorem W64_eq : W64 = 18446744073709551616 := by norm_num [W64]

theorem u64sub_eq {x y : Nat} (hy : y ≤ x) (hx : x < W64) : u64sub x y = x - y := by
  have hW := W64_eq
  have hyW : y < W64 := lt_of_le_of_lt hy hx
  have h1 : y % W64 = y := Nat.mod_eq_of_lt hyW
  rw [u64sub, h1]
  have h2 : x + (W64 - y) = W64 + (x - y) := by omega
  rw [h2, Nat.add_mod_left]
  exact Nat.mod_eq_of_lt (by omega)

theorem cppIntShl1_eq_pow {b : Nat} (hb : b ≤ 30) : cppIntShl1 b = 2 ^ b := by
  have hlt : b < 32 := by omega
  have h1 : b % 32 = b := Nat.mod_eq_of_lt hlt
  have h2 : (2:Nat) ^ b ≤ 2 ^ 30 := Nat.pow_le_pow_right (by norm_num) hb
  have h3 : (2:Nat) ^ b < 2 ^ 31 := lt_of_le_of_lt h2 (by norm_num)
  have h4 : (2:Nat) ^ b < 2 ^ 32 := lt_of_le_of_lt h2 (by norm_num)
  unfold cppIntShl1
  rw [h1, Nat.shiftLeft_eq, one_mul, Nat.mod_eq_of_lt h4, if_pos h3]

/-- C5 (amended): a GC cycle completion — epoch_reclaimed acting on an
allocator in GC_FINISHED — bumps _reclaimed_offset by exactly 2^segment_bits
and returns the state to NORMAL, for every segment_bits up to 30 (in
particular MEM_SEGMENT_BITS = 30, the only value the code constructs with)
and absent 64-bit wraparound of _reclaimed_offset; for segment_bits ≥ 31 the
int-typed shift 1 << segment_bits no longer equals 2^segment_bits and the
bump is wrong (see the counterexample). -/
theorem c5_gc_bump_reclaimed (sbits : Nat) (s : RAState) (hb : sbits ≤ 30)
    (hst : s.state = GCState.gcFinished)
    (hw : s.reclaimed_offset + 2 ^ sbits < W64) :
    (epoch_reclaimed_alloc sbits s).reclaimed_offset =
      s.reclaimed_offset + 2 ^ sbits ∧
    (epoch_reclaimed_alloc sbits s).state = GCState.normal := by
  have hres : epoch_reclaimed_alloc sbits s =
      { s with reclaimed_offset := (s.reclaimed_offset + cppIntShl1 sbits) % W64,
               state := GCState.normal } := by
    unfold epoch_reclaimed_alloc
    rw [hst]
  rw [hres, cppIntShl1_eq_pow hb]
  exact ⟨Nat.mod_eq_of_lt hw, rfl⟩

/-- Witness for C5 at segment_bits = 30 on a freshly constructed allocator
whose daemon has finished a round. -/
theorem c5_witness :
    (30 ≤ 30 ∧
     ({ region_allocator.init 30 with state := GCState.gcFinished } : RAState).state =
        GCState.gcFinished ∧
     ({ region_allocator.init 30 with state := GCState.gcFinished } : RAState).reclaimed_offset +
        2 ^ 30 < W64) ∧
    ((epoch_reclaimed_alloc 30
        { region_allocator.init 30 with state := GCState.gcFinished }).reclaimed_offset =
      ({ region_allocator.init 30 with state := GCState.gcFinished } : RAState).reclaimed_offset +
        2 ^ 30 ∧
     (epoch_reclaimed_alloc 30
        { region_allocator.init 30 with state := GCState.gcFinished }).state =
      GCState.normal) :=
  ⟨⟨by norm_num, rfl, by decide⟩,
    c5_gc_bump_reclaimed 30 _ (by norm_num) rfl (by decide)⟩

/-- Counterexample for C5 as stated: at segment_bits = 31 the completed GC
cycle moves _reclaimed_offset from 2^33 to 2^33 - 2^31 (the int-typed
1 << 31 sign-extends to 2^64 - 2^31), not to 2^33 + 2^31. -/
theorem c5_counterexample :
    c5FinState31.state = GCState.gcFinished ∧
    (epoch_reclaimed_alloc 31 c5FinState31).state = GCState.normal ∧
    (epoch_reclaimed_alloc 31 c5FinState31).reclaimed_offset = 2 ^ 33 - 2 ^ 31 ∧
    (epoch_reclaimed_alloc 31 c5FinState31).reclaimed_offset ≠
      c5FinState31.reclaimed_offset + 2 ^ 31 := by
  decide

/-- C8: when epoch_ended runs with no active RCU region while some allocator
is in GC_REQUESTED or GC_FINISHED, the returned cookie holds INVALID_LSN;
and epoch_reclaimed, given a cookie holding INVALID_LSN, leaves trim_lsn
unchanged while still performing the GC state handling on every allocator. -/
theorem c8_thread_exit_cookie :
    (∀ (states : List GCState) (curLsn : Nat),
        (∃ x ∈ states, x = GCState.gcRequested ∨ x = GCState.gcFinished) →
        epoch_ended states false curLsn = some INVALID_LSN) ∧
    (∀ (sbits trim : Nat) (allocs : List RAState),
        epoch_reclaimed sbits (some INVALID_LSN) trim allocs =
          some (trim, allocs.map (epoch_reclaimed_alloc sbits))) := by
  constructor
  · intro states curLsn
    induction states with
    | nil =>
      intro hex
      simp at hex
    | cons s rest ih =>
      intro hex
      by_cases h : s = GCState.gcRequested ∨ s = GCState.gcFinished
      · simp [epoch_ended, h]
      · have hx2 : ∃ x ∈ rest, x = GCState.gcRequested ∨ x = GCState.gcFinished := by
          rcases hex with ⟨x, hx, hxor⟩
          rcases List.mem_cons.mp hx with rfl | hmem
          · exact absurd hxor h
          · exact ⟨x, hmem, hxor⟩
        simpa [epoch_ended, h] using ih hx2
  · intro sbits trim allocs
    simp [epoch_reclaimed, INVALID_LSN]

/-- Witness for C8: one allocator in GC_REQUESTED at thread exit, then a
reclaim with the INVALID_LSN cookie. -/
theorem c8_witness :
    epoch_ended [GCState.gcRequested] false 42 = some INVALID_LSN ∧
    epoch_reclaimed 30 (some INVALID_LSN) 7 [] =
      some (7, ([] : List RAState).map (epoch_reclaimed_alloc 30)) := by
  constructor
  · exact c8_thread_exit_cookie.1 [GCState.gcRequested] 42
      ⟨GCState.gcRequested, by simp, Or.inl rfl⟩
  · exact c8_thread_exit_cookie.2 30 7 []

/-- C9: epoch_ended returns a non-null cookie exactly when some allocator is
in GC_REQUESTED or GC_FINISHED; epoch_reclaimed dereferences its cookie
unconditionally, so it crashes (none) on a null cookie and completes exactly
on non-null cookies. -/
theorem c9_cookie_null_safety :
    (∀ (states : List GCState) (rcuActive : Bool) (curLsn : Nat),
        (epoch_ended states rcuActive curLsn).isSome = true ↔
          ∃ x ∈ states, x = GCState.gcRequested ∨ x = GCState.gcFinished) ∧
    (∀ (sbits trim : Nat) (allocs : List RAState),
        epoch_reclaimed sbits none trim allocs = none) ∧
    (∀ (sbits trim : Nat) (allocs : List RAState) (lsn : Nat),
        (epoch_reclaimed sbits (some lsn) trim allocs).isSome = true) := by
  refine ⟨?_, ?_, ?_⟩
  · intro states rcu curLsn
    induction states with
    | nil => simp [epoch_ended]
    | cons s rest ih =>
      by_cases h : s = GCState.gcRequested ∨ s = GCState.gcFinished
      · exact iff_of_true (by simp [epoch_ended, h])
          ⟨s, List.mem_cons_self s rest, h⟩
      · simp only [epoch_ended, if_neg h]
        rw [ih]
        constructor
        · rintro ⟨x, hm, hx⟩
          exact ⟨x, by simp [hm], hx⟩
        · rintro ⟨x, hm, hx⟩
          rcases List.mem_cons.mp hm with rfl | hmem
          · exact absurd hx h
          · exact ⟨x, hmem, hx⟩
  · intro sbits trim allocs
    rfl
  · intro sbits trim allocs lsn
    rfl

/-! Cold-region allocation: prefix sums and the sequential run. -/

theorem prefSum_nil (i : Nat) : prefSum [] i = 0 := by
  cases i <;> rfl

theorem prefSum_zero (l : List Nat) : prefSum l 0 = 0 := by
  cases l <;> rfl

theorem prefSum_cons_succ (sz : Nat) (rest : List Nat) (i : Nat) :
    prefSum (sz :: rest) (i + 1) = sz + prefSum rest i := rfl

theorem prefSum_mono (l : List Nat) : ∀ i j, i ≤ j → prefSum l i ≤ prefSum l j := by
  induction l with
  | nil =>
    intro i j _
    rw [prefSum_nil, prefSum_nil]
  | cons sz rest ih =>
    intro i j hij
    cases i with
    | zero =>
      rw [prefSum_zero]
      exact Nat.zero_le _
    | succ a =>
      cases j with
      | zero => omega
      | succ c =>
        rw [prefSum_cons_succ, prefSum_cons_succ]
        exact Nat.add_le_add_left (ih a c (by omega)) sz

theorem prefSum_le_sum (l : List Nat) : ∀ i, prefSum l i ≤ l.sum := by
  induction l with
  | nil =>
    intro i
    rw [prefSum_nil]
    exact Nat.zero_le _
  | cons sz rest ih =>
    intro i
    cases i with
    | zero =>
      rw [prefSum_zero]
      exact Nat.zero_le _
    | succ a =>
      rw [prefSum_cons_succ, List.sum_cons]
      exact Nat.add_le_add_left (ih a) sz

theorem coldRun_spec (sbits : Nat) (hsb : sbits ≤ 62) :
    ∀ (sizes : List Nat) (s : RAState),
      (∀ x ∈ sizes, 1 ≤ x) →
      s.allocated_cold_offset + sizes.sum ≤ cold_capacity sbits →
      coldRun sbits s sizes =
        (List.range sizes.length).map
          (fun i => some (s.allocated_cold_offset + prefSum sizes i)) := by
  intro sizes
  induction sizes with
  | nil =>
    intro s _ _
    simp [coldRun]
  | cons sz rest ih =>
    intro s hpos hsum
    have hcap : cold_capacity sbits = 2 ^ (sbits + 1) := by
      unfold cold_capacity
      rw [Nat.pow_succ]
    have hsums : (sz :: rest).sum = sz + rest.sum := by simp
    have hszpos : 1 ≤ sz := hpos sz (by simp)
    have hWb : cold_capacity sbits < W64 := by
      have h1 : (2:Nat) ^ (sbits + 1) ≤ 2 ^ 63 := Nat.pow_le_pow_right (by norm_num) (by omega)
      rw [hcap]
      exact lt_of_le_of_lt h1 (by rw [W64_eq]; norm_num)
    have hmod : (s.allocated_cold_offset + sz) % W64 = s.allocated_cold_offset + sz :=
      Nat.mod_eq_of_lt (by omega)
    have hnoth : ¬ cold_capacity sbits < s.allocated_cold_offset + sz := by omega
    have hoff : u64sub (s.allocated_cold_offset + sz) sz &&& cold_mask sbits =
        s.allocated_cold_offset := by
      rw [u64sub_eq (by omega) (by omega)]
      have ha : s.allocated_cold_offset + sz - sz = s.allocated_cold_offset := by omega
      rw [ha]
      have halt : s.allocated_cold_offset < 2 ^ (sbits + 1) := by
        rw [← hcap]
        omega
      unfold cold_mask
      rw [hcap]
      exact Nat.and_pow_two_sub_one_of_lt_two_pow halt
    have hstep : allocate_cold sbits s sz =
        (some s.allocated_cold_offset,
          { s with allocated_cold_offset := s.allocated_cold_offset + sz }) := by
      simp [allocate_cold, hmod, hnoth, hoff]
    set s2 : RAState := { s with allocated_cold_offset := s.allocated_cold_offset + sz }
      with hs2
    have hs2c : s2.allocated_cold_offset = s.allocated_cold_offset + sz := by rw [hs2]
    have htail := ih s2 (fun x hx => hpos x (by simp [hx])) (by rw [hs2c]; omega)
    simp only [coldRun, hstep]
    rw [htail]
    simp only [hs2c, List.length_cons, List.range_succ_eq_map, List.map_cons,
      List.map_map]
    have hfun : ((fun i => some (s.allocated_cold_offset + prefSum (sz :: rest) i)) ∘
        Nat.succ) = (fun i => some (s.allocated_cold_offset + sz + prefSum rest i)) := by
      funext i
      simp only [Function.comp_apply, prefSum_cons_succ]
      congr 1
      omega
    rw [hfun]
    simp [prefSum_zero]

/-- C10 (amended): for every sequence of allocate_cold calls with positive
requested sizes whose cumulative size does not exceed the cold capacity
(2 * 2^segment_bits bytes, segment_bits ≤ 62), no call raises out-of-memory,
the i-th call returns _cold_data plus the sum of all earlier requested sizes
(the mask is the identity there), and the returned ranges are monotone,
hence pairwise disjoint and inside the cold region.  Sizes of zero must be
excluded: see the counterexample. -/
theorem c10_cold_sequential (sbits : Nat) (sizes : List Nat) (hsb : sbits ≤ 62)
    (hpos : ∀ x ∈ sizes, 1 ≤ x)
    (hsum : sizes.sum ≤ cold_capacity sbits) :
    coldRun sbits (region_allocator.init sbits) sizes =
      (List.range sizes.length).map (fun i => some (prefSum sizes i)) ∧
    (∀ j, prefSum sizes j ≤ cold_capacity sbits) ∧
    (∀ i j, i ≤ j → prefSum sizes i ≤ prefSum sizes j) := by
  refine ⟨?_, ?_, fun i j hij => prefSum_mono sizes i j hij⟩
  · have h := coldRun_spec sbits hsb sizes (region_allocator.init sbits) hpos
      (by simp [region_allocator.init]; omega)
    simpa [region_allocator.init] using h
  · intro j
    exact le_trans (prefSum_le_sum sizes j) hsum

/-- Witness for C10 at segment_bits = 3 and two cold allocations of 5 and 7
bytes. -/
theorem c10_witness :
    ((3:Nat) ≤ 62 ∧ (∀ x ∈ [5, 7], 1 ≤ x) ∧ List.sum [5, 7] ≤ cold_capacity 3) ∧
    (coldRun 3 (region_allocator.init 3) [5, 7] =
        (List.range (List.length [5, 7])).map (fun i => some (prefSum [5, 7] i)) ∧
     (∀ j, prefSum [5, 7] j ≤ cold_capacity 3) ∧
     (∀ i j, i ≤ j → prefSum [5, 7] i ≤ prefSum [5, 7] j)) :=
  ⟨⟨by norm_num, by decide, by decide⟩,
    c10_cold_sequential 3 [5, 7] (by norm_num) (by decide) (by decide)⟩

/-- Counterexample for C10 as stated: the sequence of requested sizes
2^31, 0 has cumulative size 2^31, not exceeding the cold capacity 2^31 of
the allocator built with MEM_SEGMENT_BITS = 30, yet the second call returns
_cold_data + 0, not _cold_data plus the sum 2^31 of the earlier sizes: at
offset 2^31 the AND with _cold_mask is not the identity. -/
theorem c10_counterexample :
    List.sum [2 ^ 31, 0] ≤ cold_capacity 30 ∧
    coldRun 30 (region_allocator.init 30) [2 ^ 31, 0] = [some 0, some 0] ∧
    (some 0 : Option Nat) ≠ some (prefSum [2 ^ 31, 0] 1) := by
  decide

/-! Shape lemmas for one iteration of the allocate retry loop. -/

theorem allocate_step_oomEq (sbits : Nat) (adv : Bool) (s : RAState) (size : Nat)
    (h : s.reclaimed_offset < (s.allocated_hot_offset + size) % W64) :
    allocate_step sbits adv s size =
      (StepResult.oom,
        { s with allocated_hot_offset := (s.allocated_hot_offset + size) % W64 }) := by
  simp [allocate_step, h]

theorem allocate_step_retryEq (sbits : Nat) (adv : Bool) (s : RAState) (size : Nat)
    (h1 : ¬ s.reclaimed_offset < (s.allocated_hot_offset + size) % W64)
    (h2 : u64sub ((s.allocated_hot_offset + size) % W64) 1 >>> sbits ≠
          u64sub ((s.allocated_hot_offset + size) % W64) size >>> sbits)
    (h3 : s.state = GCState.normal) :
    allocate_step sbits adv s size =
      (StepResult.retry,
        { s with allocated_hot_offset := (s.allocated_hot_offset + size) % W64,
                 allocated := (s.allocated + size) % W64,
                 state := GCState.gcRequested }) := by
  simp [allocate_step, h1, h2, h3]

theorem allocate_step_fatalEq (sbits : Nat) (adv : Bool) (s : RAState) (size : Nat)
    (h1 : ¬ s.reclaimed_offset < (s.allocated_hot_offset + size) % W64)
    (h2 : u64sub ((s.allocated_hot_offset + size) % W64) 1 >>> sbits ≠
          u64sub ((s.allocated_hot_offset + size) % W64) size >>> sbits)
    (h3 : s.state ≠ GCState.normal) :
    allocate_step sbits adv s size =
      (StepResult.fatal,
        { s with allocated_hot_offset := (s.allocated_hot_offset + size) % W64,
                 allocated := (s.allocated + size) % W64 }) := by
  simp [allocate_step, h1, h2, h3]

theorem allocate_step_okEq (sbits : Nat) (adv : Bool) (s : RAState) (size : Nat)
    (h1 : ¬ s.reclaimed_offset < (s.allocated_hot_offset + size) % W64)
    (h2 : ¬ (u64sub ((s.allocated_hot_offset + size) % W64) 1 >>> sbits ≠
             u64sub ((s.allocated_hot_offset + size) % W64) size >>> sbits)) :
    allocate_step sbits adv s size =
      (StepResult.ok (u64sub ((s.allocated_hot_offset + size) % W64) size &&&
          hot_mask sbits),
        if TRIM_MARK ≤ (s.allocated + size) % W64 ∧ adv = true then
          { s with allocated_hot_offset := (s.allocated_hot_offset + size) % W64,
                   allocated := 0 }
        else
          { s with allocated_hot_offset := (s.allocated_hot_offset + size) % W64,
                   allocated := (s.allocated + size) % W64 }) := by
  simp only [allocate_step, if_neg h1, if_neg h2]

theorem allocate_step_reclaimed (sbits : Nat) (adv : Bool) (s : RAState) (size : Nat) :
    (allocate_step sbits adv s size).2.reclaimed_offset = s.reclaimed_offset := by
  simp only [allocate_step]
  split_ifs <;> rfl

theorem allocate_step_hot (sbits : Nat) (adv : Bool) (s : RAState) (size : Nat) :
    (allocate_step sbits adv s size).2.allocated_hot_offset =
      (s.allocated_hot_offset + size) % W64 := by
  simp only [allocate_step]
  split_ifs <;> rfl

theorem allocate_step_oom_iff (sbits : Nat) (adv : Bool) (s : RAState) (size : Nat) :
    (allocate_step sbits adv s size).1 = StepResult.oom ↔
      s.reclaimed_offset < (s.allocated_hot_offset + size) % W64 := by
  simp only [allocate_step]
  split_ifs <;> simp_all

theorem allocate_step_ok_le_mask (sbits : Nat) (adv : Bool) (s : RAState)
    (size off : Nat)
    (h : (allocate_step sbits adv s size).1 = StepResult.ok off) :
    off ≤ hot_mask sbits := by
  have hoff : off = u64sub ((s.allocated_hot_offset + size) % W64) size &&&
      hot_mask sbits := by
    simp only [allocate_step] at h
    split_ifs at h <;> simp_all
  rw [hoff]
  exact Nat.and_le_right

theorem hot_mask_lt_capacity (sbits : Nat) : hot_mask sbits < hot_capacity sbits := by
  unfold hot_mask hot_capacity
  have hpos : 0 < 2 ^ hot_bits sbits := Nat.pos_pow_of_pos _ (by norm_num)
  omega

theorem allocate_eq (sbits : Nat) (adv1 adv2 : Bool) (s : RAState) (size : Nat) :
    allocate sbits adv1 adv2 s size =
      (match allocate_step sbits adv1 s size with
       | (StepResult.retry, s1) => stepToCall (allocate_step sbits adv2 s1 size)
       | r => stepToCall r) := by
  rcases h1 : allocate_step sbits adv1 s size with ⟨r1, s1⟩
  cases r1 <;> simp only [allocate, h1, stepToCall]

/-- C2: each iteration of allocate fetch-and-adds size into
_allocated_hot_offset to obtain noffset and raises std::bad_alloc exactly
when _reclaimed_offset < noffset; at whole-call granularity the call raises
out-of-memory exactly when it leaves _reclaimed_offset below the advanced
_allocated_hot_offset; and a call that returns normally yields an offset
inside the hot region. -/
theorem c2_oom_exactly_on_reclaimed_lt_noffset :
    (∀ (sbits : Nat) (adv : Bool) (s : RAState) (size : Nat),
        (allocate_step sbits adv s size).1 = StepResult.oom ↔
          s.reclaimed_offset < (s.allocated_hot_offset + size) % W64) ∧
    (∀ (sbits : Nat) (adv1 adv2 : Bool) (s : RAState) (size : Nat),
        ((allocate sbits adv1 adv2 s size).1 = AllocResult.oom ↔
          (allocate sbits adv1 adv2 s size).2.reclaimed_offset <
            (allocate sbits adv1 adv2 s size).2.allocated_hot_offset)) ∧
    (∀ (sbits : Nat) (adv1 adv2 : Bool) (s : RAState) (size off : Nat),
        (allocate sbits adv1 adv2 s size).1 = AllocResult.ok off →
          off < hot_capacity sbits) := by
  refine ⟨fun sbits adv s size => allocate_step_oom_iff sbits adv s size, ?_, ?_⟩
  · intro sbits adv1 adv2 s size
    rcases h1 : allocate_step sbits adv1 s size with ⟨r1, s1⟩
    have hrec1 := allocate_step_reclaimed sbits adv1 s size
    have hhot1 := allocate_step_hot sbits adv1 s size
    have hoom1 := allocate_step_oom_iff sbits adv1 s size
    rw [h1] at hrec1 hhot1 hoom1
    dsimp at hrec1 hhot1 hoom1
    rw [allocate_eq, h1]
    cases r1 with
    | ok off =>
      refine iff_of_false (by simp [stepToCall]) ?_
      show ¬ s1.reclaimed_offset < s1.allocated_hot_offset
      rw [hrec1, hhot1]
      intro hc
      have := hoom1.mpr hc
      simp at this
    | oom =>
      refine iff_of_true (by simp [stepToCall]) ?_
      show s1.reclaimed_offset < s1.allocated_hot_offset
      rw [hrec1, hhot1]
      exact hoom1.mp rfl
    | fatal =>
      refine iff_of_false (by simp [stepToCall]) ?_
      show ¬ s1.reclaimed_offset < s1.allocated_hot_offset
      rw [hrec1, hhot1]
      intro hc
      have := hoom1.mpr hc
      simp at this
    | retry =>
      rcases h2 : allocate_step sbits adv2 s1 size with ⟨r2, s2⟩
      have hrec2 := allocate_step_reclaimed sbits adv2 s1 size
      have hhot2 := allocate_step_hot sbits adv2 s1 size
      have hoom2 := allocate_step_oom_iff sbits adv2 s1 size
      rw [h2] at hrec2 hhot2 hoom2
      dsimp at hrec2 hhot2 hoom2
      show (stepToCall (allocate_step sbits adv2 s1 size)).1 = AllocResult.oom ↔
        (stepToCall (allocate_step sbits adv2 s1 size)).2.reclaimed_offset <
          (stepToCall (allocate_step sbits adv2 s1 size)).2.allocated_hot_offset
      rw [h2]
      cases r2 with
      | ok off =>
        refine iff_of_false (by simp [stepToCall]) ?_
        show ¬ s2.reclaimed_offset < s2.allocated_hot_offset
        rw [hrec2, hhot2]
        intro hc
        have := hoom2.mpr hc
        simp at this
      | oom =>
        refine iff_of_true (by simp [stepToCall]) ?_
        show s2.reclaimed_offset < s2.allocated_hot_offset
        rw [hrec2, hhot2]
        exact hoom2.mp rfl
      | fatal =>
        refine iff_of_false (by simp [stepToCall]) ?_
        show ¬ s2.reclaimed_offset < s2.allocated_hot_offset
        rw [hrec2, hhot2]
        intro hc
        have := hoom2.mpr hc
        simp at this
      | retry =>
        refine iff_of_false (by simp [stepToCall]) ?_
        show ¬ s2.reclaimed_offset < s2.allocated_hot_offset
        rw [hrec2, hhot2]
        intro hc
        have := hoom2.mpr hc
        simp at this
  · intro sbits adv1 adv2 s size off h
    rw [allocate_eq] at h
    rcases h1 : allocate_step sbits adv1 s size with ⟨r1, s1⟩
    rw [h1] at h
    cases r1 with
    | ok x =>
      simp only [stepToCall, AllocResult.ok.injEq] at h
      subst h
      exact lt_of_le_of_lt
        (allocate_step_ok_le_mask sbits adv1 s size x (by rw [h1]))
        (hot_mask_lt_capacity sbits)
    | oom => simp [stepToCall] at h
    | fatal => simp [stepToCall] at h
    | retry =>
      rcases h2 : allocate_step sbits adv2 s1 size with ⟨r2, s2⟩
      have hred : (match (StepResult.retry, s1) with
          | (StepResult.retry, s1) => stepToCall (allocate_step sbits adv2 s1 size)
          | r => stepToCall r) = stepToCall (allocate_step sbits adv2 s1 size) := rfl
      rw [hred, h2] at h
      cases r2 with
      | ok x =>
        simp only [stepToCall, AllocResult.ok.injEq] at h
        subst h
        exact lt_of_le_of_lt
          (allocate_step_ok_le_mask sbits adv2 s1 size x (by rw [h2]))
          (hot_mask_lt_capacity sbits)
      | oom => simp [stepToCall] at h
      | fatal => simp [stepToCall] at h
      | retry => simp [stepToCall] at h

/-- Witness for C2 on the segment-bits-3 allocator: a 40-byte request
overflows the 32-byte hot ring (out of memory), an 8-byte request succeeds
with offset 0, inside the hot region. -/
theorem c2_witness :
    ((allocate_step 3 false raInit3 40).1 = StepResult.oom ↔
      raInit3.reclaimed_offset < (raInit3.allocated_hot_offset + 40) % W64) ∧
    ((allocate 3 false false raInit3 40).1 = AllocResult.oom ↔
      (allocate 3 false false raInit3 40).2.reclaimed_offset <
        (allocate 3 false false raInit3 40).2.allocated_hot_offset) ∧
    (allocate 3 false false raInit3 8).1 = AllocResult.ok 0 ∧
    (0:Nat) < hot_capacity 3 :=
  ⟨c2_oom_exactly_on_reclaimed_lt_noffset.1 3 false raInit3 40,
   c2_oom_exactly_on_reclaimed_lt_noffset.2.1 3 false false raInit3 40,
   by decide,
   c2_oom_exactly_on_reclaimed_lt_noffset.2.2 3 false false raInit3 8 0 (by decide)⟩

/-- C3: when the fresh chunk spans a segment boundary (the shifted values of
noffset-1 and noffset-size differ), the chunk is abandoned: from NORMAL the
allocator moves to GC_REQUESTED and the call retries with a fresh
fetch-and-add; from any other state the call throws; and a non-spanning
chunk (absent out-of-memory) returns the offset
(noffset - size) & _hot_mask into _hot_data. -/
theorem c3_segment_spanning_behaviour :
    (∀ (sbits : Nat) (adv1 adv2 : Bool) (s : RAState) (size : Nat),
        ¬ s.reclaimed_offset < (s.allocated_hot_offset + size) % W64 →
        u64sub ((s.allocated_hot_offset + size) % W64) 1 >>> sbits ≠
          u64sub ((s.allocated_hot_offset + size) % W64) size >>> sbits →
        s.state = GCState.normal →
        (allocate_step sbits adv1 s size).1 = StepResult.retry ∧
        (allocate_step sbits adv1 s size).2.state = GCState.gcRequested ∧
        allocate sbits adv1 adv2 s size =
          stepToCall (allocate_step sbits adv2 (allocate_step sbits adv1 s size).2 size) ∧
        (allocate_step sbits adv2 (allocate_step sbits adv1 s size).2 size).2.allocated_hot_offset =
          (((s.allocated_hot_offset + size) % W64) + size) % W64) ∧
    (∀ (sbits : Nat) (adv1 adv2 : Bool) (s : RAState) (size : Nat),
        ¬ s.reclaimed_offset < (s.allocated_hot_offset + size) % W64 →
        u64sub ((s.allocated_hot_offset + size) % W64) 1 >>> sbits ≠
          u64sub ((s.allocated_hot_offset + size) % W64) size >>> sbits →
        s.state ≠ GCState.normal →
        allocate sbits adv1 adv2 s size =
          (AllocResult.fatal,
            { s with allocated_hot_offset := (s.allocated_hot_offset + size) % W64,
                     allocated := (s.allocated + size) % W64 })) ∧
    (∀ (sbits : Nat) (adv1 adv2 : Bool) (s : RAState) (size : Nat),
        ¬ s.reclaimed_offset < (s.allocated_hot_offset + size) % W64 →
        ¬ (u64sub ((s.allocated_hot_offset + size) % W64) 1 >>> sbits ≠
           u64sub ((s.allocated_hot_offset + size) % W64) size >>> sbits) →
        (allocate sbits adv1 adv2 s size).1 =
          AllocResult.ok (u64sub ((s.allocated_hot_offset + size) % W64) size &&&
            hot_mask sbits)) := by
  refine ⟨?_, ?_, ?_⟩
  · intro sbits adv1 adv2 s size h1 h2 h3
    have hstep := allocate_step_retryEq sbits adv1 s size h1 h2 h3
    refine ⟨by rw [hstep], by rw [hstep], ?_, ?_⟩
    · rw [allocate_eq, hstep]
    · rw [allocate_step_hot sbits adv2 (allocate_step sbits adv1 s size).2 size,
        allocate_step_hot sbits adv1 s size]
  · intro sbits adv1 adv2 s size h1 h2 h3
    have hstep := allocate_step_fatalEq sbits adv1 s size h1 h2 h3
    rw [allocate_eq, hstep]
    rfl
  · intro sbits adv1 adv2 s size h1 h2
    have hstep := allocate_step_okEq sbits adv1 s size h1 h2
    rw [allocate_eq, hstep]
    rfl

/-- Witness for C3 on the segment-bits-3 allocator: a 9-byte chunk spans the
first segment boundary (retry from NORMAL, fatal from GC_IN_PROG), while an
8-byte chunk does not span and returns offset 0. -/
theorem c3_witness :
    ((¬ raInit3.reclaimed_offset < (raInit3.allocated_hot_offset + 9) % W64) ∧
     (u64sub ((raInit3.allocated_hot_offset + 9) % W64) 1 >>> 3 ≠
       u64sub ((raInit3.allocated_hot_offset + 9) % W64) 9 >>> 3) ∧
     raInit3.state = GCState.normal ∧
     ((allocate_step 3 false raInit3 9).1 = StepResult.retry ∧
      (allocate_step 3 false raInit3 9).2.state = GCState.gcRequested ∧
      allocate 3 false false raInit3 9 =
        stepToCall (allocate_step 3 false (allocate_step 3 false raInit3 9).2 9) ∧
      (allocate_step 3 false (allocate_step 3 false raInit3 9).2 9).2.allocated_hot_offset =
        (((raInit3.allocated_hot_offset + 9) % W64) + 9) % W64)) ∧
    (raInit3InProg.state ≠ GCState.normal ∧
     allocate 3 false false raInit3InProg 9 =
       (AllocResult.fatal,
         { raInit3InProg with
             allocated_hot_offset := (raInit3InProg.allocated_hot_offset + 9) % W64,
             allocated := (raInit3InProg.allocated + 9) % W64 })) ∧
    ((¬ (u64sub ((raInit3.allocated_hot_offset + 8) % W64) 1 >>> 3 ≠
         u64sub ((raInit3.allocated_hot_offset + 8) % W64) 8 >>> 3)) ∧
     (allocate 3 false false raInit3 8).1 =
       AllocResult.ok (u64sub ((raInit3.allocated_hot_offset + 8) % W64) 8 &&&
         hot_mask 3)) :=
  ⟨⟨by decide, by decide, rfl,
    c3_segment_spanning_behaviour.1 3 false false raInit3 9 (by decide) (by decide) rfl⟩,
   ⟨by decide,
    c3_segment_spanning_behaviour.2.1 3 false false raInit3InProg 9 (by decide)
      (by decide) (by decide)⟩,
   ⟨by decide,
    c3_segment_spanning_behaviour.2.2 3 false false raInit3 8 (by decide) (by decide)⟩⟩

/-! The hot-window invariant (claim C1). -/

/-- Counterexample for C1 as stated: four full-segment allocations fill the
hot ring exactly; a fifth raises out-of-memory, but only after its
fetch-and-add has pushed _allocated_hot_offset past _reclaimed_offset, so
immediately after the failing call the difference
_reclaimed_offset - _allocated_hot_offset is negative (as uint64 arithmetic
it wraps to 2^64 - 2^30, far above hot_capacity). -/
theorem c1_counterexample :
    (allocate 30 false false c1Trace4 (2 ^ 30)).1 = AllocResult.oom ∧
    c1Trace5.reclaimed_offset < c1Trace5.allocated_hot_offset ∧
    hot_capacity 30 < u64sub c1Trace5.reclaimed_offset c1Trace5.allocated_hot_offset := by
  decide

theorem allocate_step_inv (adv : Bool) (s : RAState) (size : Nat)
    (hs : 1 ≤ size) (hw : s.allocated_hot_offset + size < W64)
    (hinv : allocInv s)
    (hno : (allocate_step 30 adv s size).1 ≠ StepResult.oom) :
    allocInv (allocate_step 30 adv s size).2 := by
  have hW := W64_eq
  have hmod : (s.allocated_hot_offset + size) % W64 = s.allocated_hot_offset + size :=
    Nat.mod_eq_of_lt hw
  have hle : ¬ s.reclaimed_offset < (s.allocated_hot_offset + size) % W64 :=
    fun hc => hno ((allocate_step_oom_iff 30 adv s size).mpr hc)
  have hle2 : s.allocated_hot_offset + size ≤ s.reclaimed_offset := by
    rw [hmod] at hle
    omega
  have hu1 : u64sub ((s.allocated_hot_offset + size) % W64) 1 =
      s.allocated_hot_offset + size - 1 := by
    rw [hmod]
    exact u64sub_eq (by omega) (by omega)
  have hu2 : u64sub ((s.allocated_hot_offset + size) % W64) size =
      s.allocated_hot_offset := by
    rw [hmod, u64sub_eq (by omega) (by omega)]
    omega
  obtain ⟨i1, i2, i3⟩ := hinv
  have hp30 : (2:Nat) ^ 30 = 1073741824 := by norm_num
  have hp32 : (2:Nat) ^ 32 = 4294967296 := by norm_num
  rw [Nat.shiftRight_eq_div_pow] at i2 i3
  rw [hp30, hp32] at i2 i3
  by_cases hspan : u64sub ((s.allocated_hot_offset + size) % W64) 1 >>> 30 ≠
      u64sub ((s.allocated_hot_offset + size) % W64) size >>> 30
  · have hspan2 : (s.allocated_hot_offset + size - 1) / 1073741824 ≠
        s.allocated_hot_offset / 1073741824 := by
      rw [hu1, hu2, Nat.shiftRight_eq_div_pow, Nat.shiftRight_eq_div_pow, hp30] at hspan
      exact hspan
    by_cases hst : s.state = GCState.normal
    · rw [allocate_step_retryEq 30 adv s size hle hspan hst]
      unfold allocInv
      dsimp only
      rw [hmod]
      simp only [Nat.shiftRight_eq_div_pow, hp30, hp32]
      refine ⟨hle2, by omega, fun _ => by omega⟩
    · rw [allocate_step_fatalEq 30 adv s size hle hspan hst]
      unfold allocInv
      dsimp only
      rw [hmod]
      simp only [Nat.shiftRight_eq_div_pow, hp30, hp32]
      have hi3 := i3 hst
      refine ⟨hle2, by omega, fun _ => by omega⟩
  · rw [allocate_step_okEq 30 adv s size hle hspan]
    have hmain : ∀ st2 : RAState,
        st2.allocated_hot_offset = s.allocated_hot_offset + size →
        st2.reclaimed_offset = s.reclaimed_offset →
        st2.state = s.state → allocInv st2 := by
      intro st2 ha hb hc
      unfold allocInv
      rw [ha, hb, hc]
      simp only [Nat.shiftRight_eq_div_pow, hp30, hp32]
      refine ⟨hle2, by omega, fun hstt => ?_⟩
      have hi3 := i3 hstt
      omega
    split_ifs with htrim
    · exact hmain _ hmod rfl rfl
    · exact hmain _ hmod rfl rfl

theorem allocate_inv (adv1 adv2 : Bool) (s : RAState) (size : Nat)
    (hs : 1 ≤ size) (hw : s.allocated_hot_offset + size + size < W64)
    (hinv : allocInv s)
    (hno : (allocate 30 adv1 adv2 s size).1 ≠ AllocResult.oom) :
    allocInv (allocate 30 adv1 adv2 s size).2 := by
  have hW := W64_eq
  rw [allocate_eq] at hno ⊢
  rcases h1 : allocate_step 30 adv1 s size with ⟨r1, s1⟩
  rw [h1] at hno
  cases r1 with
  | oom => exact absurd rfl hno
  | ok off =>
    have h' : allocInv (allocate_step 30 adv1 s size).2 :=
      allocate_step_inv adv1 s size hs (by omega) hinv (by rw [h1]; simp)
    rw [h1] at h'
    exact h'
  | fatal =>
    have h' : allocInv (allocate_step 30 adv1 s size).2 :=
      allocate_step_inv adv1 s size hs (by omega) hinv (by rw [h1]; simp)
    rw [h1] at h'
    exact h'
  | retry =>
    have hinv1 : allocInv s1 := by
      have h' := allocate_step_inv adv1 s size hs (by omega) hinv (by rw [h1]; simp)
      rwa [h1] at h'
    have hhot1 : s1.allocated_hot_offset = s.allocated_hot_offset + size := by
      have h' := allocate_step_hot 30 adv1 s size
      rw [h1] at h'
      dsimp at h'
      rw [h']
      exact Nat.mod_eq_of_lt (by omega)
    have hno2 : (allocate_step 30 adv2 s1 size).1 ≠ StepResult.oom := by
      intro hc
      apply hno
      show (stepToCall (allocate_step 30 adv2 s1 size)).1 = AllocResult.oom
      rcases h2 : allocate_step 30 adv2 s1 size with ⟨r2, s2⟩
      rw [h2] at hc
      dsimp at hc
      subst hc
      rfl
    have h2' := allocate_step_inv adv2 s1 size hs (by rw [hhot1]; exact hw) hinv1 hno2
    show allocInv (stepToCall (allocate_step 30 adv2 s1 size)).2
    rcases h2 : allocate_step 30 adv2 s1 size with ⟨r2, s2⟩
    rw [h2] at h2'
    cases r2 <;> exact h2'

theorem reach_inv (s : RAState) (h : ReachNoOOM 30 s) : allocInv s := by
  induction h with
  | init =>
    refine ⟨Nat.zero_le _, ?_, fun hc => absurd rfl hc⟩
    show hot_capacity 30 ≤ (0 >>> 30) * 2 ^ 30 + 2 ^ 32
    norm_num [hot_capacity, hot_bits, NUM_SEGMENT_BITS, Nat.zero_shiftRight]
  | alloc s size adv1 adv2 hr hs hw hno ih =>
    exact allocate_inv adv1 adv2 s size hs hw ih hno
  | allocCold s size hr ih =>
    have hfields : (allocate_cold 30 s size).2.allocated_hot_offset =
          s.allocated_hot_offset ∧
        (allocate_cold 30 s size).2.reclaimed_offset = s.reclaimed_offset ∧
        (allocate_cold 30 s size).2.state = s.state := by
      simp only [allocate_cold]
      split_ifs <;> exact ⟨rfl, rfl, rfl⟩
    obtain ⟨f1, f2, f3⟩ := hfields
    unfold allocInv at ih ⊢
    rw [f1, f2, f3]
    exact ih
  | daemonDone s hr hst ih =>
    obtain ⟨i1, i2, i3⟩ := ih
    exact ⟨i1, i2, fun _ => i3 (by simp [hst])⟩
  | epochReclaim s hr hw ih =>
    obtain ⟨i1, i2, i3⟩ := ih
    cases hst : s.state with
    | normal =>
      have hid : epoch_reclaimed_alloc 30 s = s := by
        unfold epoch_reclaimed_alloc
        rw [hst]
      rw [hid]
      exact ⟨i1, i2, i3⟩
    | gcInProg =>
      have hid : epoch_reclaimed_alloc 30 s = s := by
        unfold epoch_reclaimed_alloc
        rw [hst]
      rw [hid]
      exact ⟨i1, i2, i3⟩
    | gcRequested =>
      have hid : epoch_reclaimed_alloc 30 s = { s with state := GCState.gcInProg } := by
        unfold epoch_reclaimed_alloc
        rw [hst]
      rw [hid]
      exact ⟨i1, i2, fun _ => i3 (by simp [hst])⟩
    | gcFinished =>
      have hcpp : cppIntShl1 30 = 2 ^ 30 := cppIntShl1_eq_pow (by norm_num)
      have hid : epoch_reclaimed_alloc 30 s =
          { s with reclaimed_offset := (s.reclaimed_offset + cppIntShl1 30) % W64,
                   state := GCState.normal } := by
        unfold epoch_reclaimed_alloc
        rw [hst]
      rw [hid]
      have hmod : (s.reclaimed_offset + cppIntShl1 30) % W64 =
          s.reclaimed_offset + 2 ^ 30 := by
        rw [hcpp]
        exact Nat.mod_eq_of_lt hw
      have hi3 := i3 (by simp [hst])
      refine ⟨?_, ?_, fun hcc => absurd rfl hcc⟩
      · show s.allocated_hot_offset ≤ (s.reclaimed_offset + cppIntShl1 30) % W64
        rw [hmod]
        exact le_trans i1 (Nat.le_add_right _ _)
      · show (s.reclaimed_offset + cppIntShl1 30) % W64 ≤
          (s.allocated_hot_offset >>> 30) * 2 ^ 30 + 2 ^ 32
        rw [hmod]
        exact hi3

/-- C1 (amended): in every state of the per-socket allocator
(MEM_SEGMENT_BITS = 30) reachable from construction through allocate calls
with positive sizes that do not raise out-of-memory, allocate_cold calls,
daemon completions and epoch_reclaimed transitions, with the 64-bit counters
not wrapping, the difference _reclaimed_offset - _allocated_hot_offset lies
in [0, hot_capacity].  The original claim fails immediately after an
out-of-memory allocate, whose fetch-and-add has already pushed
_allocated_hot_offset beyond _reclaimed_offset (see the counterexample). -/
theorem c1_window_invariant (s : RAState) (h : ReachNoOOM 30 s) :
    s.allocated_hot_offset ≤ s.reclaimed_offset ∧
    s.reclaimed_offset - s.allocated_hot_offset ≤ hot_capacity 30 := by
  obtain ⟨i1, i2, _⟩ := reach_inv s h
  have hcap : hot_capacity 30 = 2 ^ 32 := by
    norm_num [hot_capacity, hot_bits, NUM_SEGMENT_BITS]
  have hp30 : (2:Nat) ^ 30 = 1073741824 := by norm_num
  have hp32 : (2:Nat) ^ 32 = 4294967296 := by norm_num
  rw [Nat.shiftRight_eq_div_pow] at i2
  rw [hp30, hp32] at i2
  have hdm : s.allocated_hot_offset / 1073741824 * 1073741824 ≤ s.allocated_hot_offset :=
    Nat.div_mul_le_self _ _
  refine ⟨i1, ?_⟩
  rw [hcap, hp32]
  omega

/-- Witness for C1 at the constructed state, which is reachable by the empty
sequence. -/
theorem c1_witness :
    (region_allocator.init 30).allocated_hot_offset ≤
      (region_allocator.init 30).reclaimed_offset ∧
    (region_allocator.init 30).reclaimed_offset -
        (region_allocator.init 30).allocated_hot_offset ≤ hot_capacity 30 :=
  c1_window_invariant (region_allocator.init 30) ReachNoOOM.init

end Corobase
